import Mathlib

/-!
Verification development for the DRIC publications classification pipeline.

Shallow embedding of the two scripts:
  * `scripts/fetch_ucc_scholar.py` — name-variant generation, period parsing,
    and the virtualized-table scraper loop of `scrape_for_name`;
  * `scripts/check_dric.py` — the content fetcher `_crawl_article`, the
    classifier `_ask_dric`, and the per-row pipeline `_process_row`.

Browser, network and file I/O are external collaborators; they are modelled
as explicit parameters (a list of rendered rows plus a schedule of rendered
row counts for the virtual table; outcome oracles for the two external HTTP
services).  Wall-clock time is modelled as a rational virtual clock that
advances only on `time.sleep`; service invocations and their timestamps are
recorded in explicit traces so that rate-limiting claims are statable.
-/

/-! ## Rows of the publications data table (fetch_ucc_scholar.py) -/

/-- One rendered row of the publications table, with the four fields read by
`scrape_for_name`: authors cell text, title anchor text, raw year cell text
and the title anchor's href. -/
structure Row where
  authors : String
  title : String
  year_text : String
  link : String
deriving DecidableEq, Repr, Inhabited

/-- Value of four decimal digit characters. -/
def fourVal (c1 c2 c3 c4 : Char) : Nat :=
  (c1.toNat - 48) * 1000 + (c2.toNat - 48) * 100 + (c3.toNat - 48) * 10 + (c4.toNat - 48)

/-- Leftmost match of the regex `\d{4}`: the first window of four consecutive
decimal digits, as a number.  Models `re.search(r"(\d{4})", s)` followed by
`int(...)` on the captured group. -/
def firstFour : List Char → Option Nat
  | c1 :: c2 :: c3 :: c4 :: rest =>
    if c1.isDigit && c2.isDigit && c3.isDigit && c4.isDigit then
      some (fourVal c1 c2 c3 c4)
    else firstFour (c2 :: c3 :: c4 :: rest)
  | _ => none

/-- `int(re.search(r"(\d{4})", year_text).group(1))`, with the `except`
branch mapped to `none` (`pub_year = None`). -/
def parseYear (s : String) : Option Nat := firstFour s.data

/-- `results[:per_name_limit]` when a limit was supplied, else `results`. -/
def applyCap (cap : Option Nat) (l : List Row) : List Row :=
  match cap with
  | none => l
  | some k => l.take k

/-- `per_name_limit is not None and len(results) >= per_name_limit`. -/
def capReached (cap : Option Nat) (acc : List Row) : Bool :=
  match cap with
  | none => false
  | some k => k ≤ acc.length

/-- The inner `for i in range(last_count + 1, min(count, cap))` loop of
`scrape_for_name` (lines 78–95): extract row `i`, parse its year, and either
return early (`pub_year is not None and pub_year < year_min`, line 92–93,
flag `true`) or append the row and continue.  `stop` is the exclusive upper
bound `min(count, cap)`. -/
def extractRowsAux (rows : List Row) (year_min : Nat) :
    Nat → Nat → List Row → List Row × Bool
  | 0, _, acc => (acc, false)
  | fuel + 1, i, acc =>
    let row := rows.getD i default
    match parseYear row.year_text with
    | some y =>
      if y < year_min then (acc, true)
      else extractRowsAux rows year_min fuel (i + 1) (acc ++ [row])
    | none => extractRowsAux rows year_min fuel (i + 1) (acc ++ [row])

/-- Entry point for the inner loop: iterate indices `i, i+1, …, stop-1`
(`range(start, stop)` performs exactly `stop - start` iterations). -/
def extractRows (rows : List Row) (year_min stop i : Nat) (acc : List Row) :
    List Row × Bool :=
  extractRowsAux rows year_min (stop - i) i acc

/-- The outer `while True` scroll loop of `scrape_for_name` (lines 72–112).
`schedule` is the sequence of rendered-row counts the virtual table reports
on successive iterations; an exhausted schedule models the `break` taken when
the scroller cannot scroll further.  `last_count` starts at `-1`. -/
def scrapeLoop (rows : List Row) (year_min : Nat) (cap : Option Nat) :
    List Nat → Int → List Row → List Row
  | [], _, acc => applyCap cap acc
  | count :: rest, last_count, acc =>
    let stop := match cap with
      | none => count
      | some k => min count k
    match extractRows rows year_min stop (last_count + 1).toNat acc with
    | (acc2, true) => acc2
    | (acc2, false) =>
      if ((count : Int) == last_count) || capReached cap acc2 then applyCap cap acc2
      else scrapeLoop rows year_min cap rest (count : Int) acc2

/-- `scrape_for_name` (fetch_ucc_scholar.py, lines 29–113) on a table whose
rendered rows and render schedule are given explicitly.  `year_max` is a
parameter of the source function that its body never reads. -/
def scrape_for_name (rows : List Row) (schedule : List Nat)
    (year_min year_max : Nat) (per_name_limit : Option Nat) : List Row :=
  scrapeLoop rows year_min per_name_limit schedule (-1) []

/-! ### Concrete tables for the scraper claims -/

/-- Row `N` of the simulated table: year text is `2025 − N`. -/
def mkRow (N : Nat) : Row :=
  { authors := "a" ++ toString N, title := "t" ++ toString N,
    year_text := toString (2025 - N), link := "l" ++ toString N }

/-- Simulated table of `total` rows where row `N` has year `2025 − N`. -/
def testTable (total : Nat) : List Row := (List.range total).map mkRow

/-- A row does not trigger the early stop of lines 92–93: its year is
unparseable, or parses to at least `year_min`. -/
def keepRow (year_min : Nat) (r : Row) : Bool :=
  match parseYear r.year_text with
  | none => true
  | some y => year_min ≤ y

/-- A row triggers the early stop of lines 92–93: its year parses and is
strictly below `year_min`. -/
def stopRow (year_min : Nat) (r : Row) : Bool :=
  match parseYear r.year_text with
  | none => false
  | some y => y < year_min

/-- Row `N` of a table whose every row has year 2025 (so the year floor never
stops the scan and every rendered row should be collected). -/
def flatRow (N : Nat) : Row :=
  { authors := "a" ++ toString N, title := "t" ++ toString N,
    year_text := "2025", link := "l" ++ toString N }

/-- Table of `total` rows, all with year 2025. -/
def flatTable (total : Nat) : List Row := (List.range total).map flatRow

example : parseYear "2019" = some 2019 := by decide
example : parseYear "no-year" = none := by decide
example : parseYear (toString (2025 - 6)) = some 2019 := by decide
example : scrape_for_name (testTable 9) [9] 2020 2025 none = (testTable 9).take 6 := by decide

/-! ## Name variant generation (`build_queries`, fetch_ucc_scholar.py 120–175)

String primitives are implemented over `List Char` by structural recursion
(Lean core's position-based `String.split`/`String.trim` are well-founded
definitions that the kernel cannot evaluate), with Python's semantics. -/

/-- Accumulator pass for whitespace splitting. -/
def splitWsAux : List Char → List Char → List (List Char)
  | [], acc => if acc.isEmpty then [] else [acc.reverse]
  | c :: rest, acc =>
    if c.isWhitespace then
      if acc.isEmpty then splitWsAux rest []
      else acc.reverse :: splitWsAux rest []
    else splitWsAux rest (c :: acc)

/-- Python's argumentless `str.split()`: split on whitespace runs, discarding
empty pieces. -/
def pySplitWs (l : List Char) : List (List Char) := splitWsAux l []

/-- Python's `str.strip()`: drop leading and trailing whitespace. -/
def stripChars (l : List Char) : List Char :=
  ((l.dropWhile Char.isWhitespace).reverse.dropWhile Char.isWhitespace).reverse

/-- `[p.strip() for p in full_name.split() if p.strip()]`: the tokens of
`split()` carry no whitespace, so the comprehension's re-strip and re-filter
are no-ops on them. -/
def pySplit (s : String) : List String := (pySplitWs s.data).map String.mk

/-- First pass of `build_queries`: `if v and v not in ordered: ordered.append(v)`
over `preferred_order`. -/
def orderedDedupNE (l : List String) : List String :=
  l.foldl (fun acc v => if v ≠ "" ∧ v ∉ acc then acc ++ [v] else acc) []

/-- Second pass of `build_queries`: `if v not in ordered: ordered.append(v)`
over the `variants` set.  Python set iteration order is unspecified; in
`build_queries` every set member already occurs in `ordered`, so the pass
appends nothing and any iteration order yields the same result — we use the
insertion order of the set literal and `.add` calls. -/
def appendMissing (acc : List String) (l : List String) : List String :=
  l.foldl (fun acc v => if v ∉ acc then acc ++ [v] else acc) acc

/-- The five variant groups of `build_queries`, shared by `preferred_order`
(lines 158–166) and the `variants` set (lines 139–155): both hold exactly
these strings.  `head` is the string used for the first entry
(`full_name.strip()` in the source). -/
def variantGroups (head : String) (first lastTok : List Char) (middles : List (List Char)) :
    List String :=
  let initials_concat := first.take 1 ++ (middles.map (fun m => m.take 1)).flatten
  let mid_last_concat := (middles.map (fun m => m.take 1)).flatten ++ lastTok.take 1
  [head, String.mk (first.take 1 ++ ' ' :: lastTok)]
  ++ middles.map (fun m => String.mk (m.take 1 ++ ' ' :: lastTok))
  ++ (if initials_concat ≠ [] then [String.mk (initials_concat ++ ' ' :: lastTok)] else [])
  ++ (if middles ≠ [] then [String.mk (first ++ ' ' :: mid_last_concat)] else [])

/-- `build_queries` (fetch_ucc_scholar.py, lines 120–175). -/
def build_queries (full_name : String) : List String :=
  let parts := pySplitWs full_name.data
  match parts with
  | [] => [full_name]
  | first :: rest =>
    let lastTok := (first :: rest).getLastD []
    let middles := ((first :: rest).drop 1).dropLast
    let preferred_order := variantGroups (String.mk (stripChars full_name.data)) first lastTok middles
    let variants := variantGroups (String.mk (stripChars full_name.data)) first lastTok middles
    appendMissing (orderedDedupNE preferred_order) variants

/-- Modelled from the spec's wording (section 4.1) for comparison with
`build_queries`: the variant list "in this exact preference order":
(1) the original full name; (2) first-initial + last name; (3) for each middle
token, its initial + last name, left to right; (4) concatenated initials +
last name, only if nonempty; (5) first name + concatenated
(middle-initials + last-initial), only if middle tokens exist. -/
def specOrderedVariants (full_name : String) : List String :=
  let parts := pySplitWs full_name.data
  match parts with
  | [] => [full_name]
  | first :: rest =>
    let lastTok := (first :: rest).getLastD []
    let middles := ((first :: rest).drop 1).dropLast
    variantGroups full_name first lastTok middles

/-- Dedup preserving first occurrence, as the spec's "with duplicates removed". -/
def dedupFirst (l : List String) : List String :=
  l.foldl (fun acc v => if v ∉ acc then acc ++ [v] else acc) []

example : build_queries "Kwame Asante Boateng" =
    ["Kwame Asante Boateng", "K Boateng", "A Boateng", "KA Boateng", "Kwame AB"] := by decide
example : build_queries "Plato" = ["Plato", "P Plato"] := by decide

/-! ## Period parsing (fetch_ucc_scholar.py, lines 200–206) -/

/-- All non-overlapping matches of `\d{4}`: `re.findall(r"\d{4}", period)`
followed by `int(y)` on each match. -/
def findAll4 : List Char → List Nat
  | c1 :: c2 :: c3 :: c4 :: rest =>
    if c1.isDigit && c2.isDigit && c3.isDigit && c4.isDigit then
      fourVal c1 c2 c3 c4 :: findAll4 rest
    else findAll4 (c2 :: c3 :: c4 :: rest)
  | _ => []

/-- Does the string contain four consecutive decimal digits?  (Spec-side
predicate: "a string containing no 4-digit number".) -/
def hasFour : List Char → Bool
  | c1 :: c2 :: c3 :: c4 :: rest =>
    (c1.isDigit && c2.isDigit && c3.isDigit && c4.isDigit) || hasFour (c2 :: c3 :: c4 :: rest)
  | _ => false

/-- `years_in_period = [int(y) for y in re.findall(r"\d{4}", period)]`. -/
def periodYears (period : String) : List Nat := findAll4 period.data

/-- The year-bounds computation of `fetch_period` (lines 200–206): `none`
models the `ValueError` raised when no 4-digit number is found — raised
before the `async_playwright` browser block (line 208) is ever entered. -/
def fetch_period_bounds (period : String) : Option (Nat × Nat) :=
  match periodYears period with
  | [] => none
  | [y] => some (y, y)
  | y :: ys => some ((y :: ys).foldl Nat.min y, (y :: ys).foldl Nat.max y)

example : fetch_period_bounds "2016-2017" = some (2016, 2017) := by decide
example : fetch_period_bounds "2020" = some (2020, 2020) := by decide
example : fetch_period_bounds "no-year-here" = none := by decide

/-! ## The fetch/classify pipeline (check_dric.py)

The two external HTTP services are modelled as outcome oracles indexed by the
number of requests already issued to that service in the process.  Wall-clock
time is a rational virtual clock: it advances only on `time.sleep` (service
round-trips are treated as instantaneous, the adversarially fast but legal
case for spacing claims).  Each `time.sleep` duration and each service request
timestamp is recorded in a trace. -/

/-- `_FIRECRAWL_MIN_INTERVAL = 2` (check_dric.py line 41). -/
def FIRECRAWL_MIN_INTERVAL : ℚ := 2

/-- `_GROQ_MIN_INTERVAL = 1` (check_dric.py line 43). -/
def GROQ_MIN_INTERVAL : ℚ := 1

/-- `max_retries` default of `_crawl_article` (line 145). -/
def FIRECRAWL_MAX_RETRIES : Nat := 3

/-- `max_retries` default of `_ask_dric` (line 202). -/
def GROQ_MAX_RETRIES : Nat := 4

/-- `List.isPrefixOf` test for one pattern occurring contiguously inside a
character list (Python's `in` on strings). -/
def containsSub (pat : List Char) : List Char → Bool
  | [] => pat.isEmpty
  | c :: rest => pat.isPrefixOf (c :: rest) || containsSub pat rest

/-- `msg = str(exc).lower()` then `"429" in msg or "rate limit" in msg`
(lines 188–189 and 233–234; the two call sites test the same pair of
substrings). -/
def isRateLimitMsg (msg : String) : Bool :=
  let m := msg.data.map Char.toLower
  containsSub "429".data m || containsSub "rate limit".data m

/-- A Python dict used as a cache: assignment prepends, lookup finds the most
recent binding — observationally Python's dict for `lookup`. -/
def cacheSet (c : List (String × String)) (k v : String) : List (String × String) :=
  (k, v) :: c

/-- Truthiness of an optional string in Python: `None` and `""` are falsy. -/
def pyTruthy (o : Option String) : Bool :=
  match o with
  | none => false
  | some s => s ≠ ""

/-- What `firecrawl_client.scrape_url` may return: a dict with optional
`markdown` / `text` fields, or a raw value coerced via `str(result)`. -/
inductive FcResult where
  | dict (markdown text : Option String)
  | raw (s : String)
deriving DecidableEq

/-- Outcome of one Firecrawl request: a value, or a raised exception whose
`str(exc)` is `msg`. -/
inductive FcOutcome where
  | ok (result : FcResult)
  | err (msg : String)
deriving DecidableEq

/-- `text = result.get("markdown") or result.get("text") or ""` (line 177;
Python `or` falls through on `None` and on the empty string) followed by the
redundant `text = text or ""` (line 181); `str(result)` for non-dicts. -/
def fcExtractText : FcResult → String
  | .dict md tx =>
    if pyTruthy md then md.getD "" else if pyTruthy tx then tx.getD "" else ""
  | .raw s => s

/-- Outcome of one Groq request: a reply whose `.content` may be `None`, or a
raised exception. -/
inductive GqOutcome where
  | ok (content : Option String)
  | err (msg : String)
deriving DecidableEq

/-- Process state touched by `_crawl_article`: `_ARTICLE_CACHE`,
`_LAST_FIRECRAWL_CALL`, the virtual clock, and the two traces. -/
structure FetchState where
  articleCache : List (String × String)
  lastFirecrawlCall : Option ℚ
  clock : ℚ
  fcCalls : List ℚ
  sleeps : List ℚ
deriving DecidableEq

/-- Module-load state: empty cache, `_LAST_FIRECRAWL_CALL = None`. -/
def initFetchState : FetchState :=
  { articleCache := [], lastFirecrawlCall := none, clock := 0, fcCalls := [], sleeps := [] }

/-- `time.sleep(d)` observed on the fetcher's state. -/
def sleepF (st : FetchState) (d : ℚ) : FetchState :=
  { st with clock := st.clock + d, sleeps := st.sleeps ++ [d] }

/-- Lines 166–169: sleep the remaining delta when the last recorded Firecrawl
call is too recent.  (`_LAST_FIRECRAWL_CALL` is read here but — faithfully to
the source — never written anywhere in `_crawl_article`.) -/
def waitMinF (st : FetchState) : FetchState :=
  match st.lastFirecrawlCall with
  | none => st
  | some t =>
    if st.clock - t < FIRECRAWL_MIN_INTERVAL then
      sleepF st (FIRECRAWL_MIN_INTERVAL - (st.clock - t))
    else st

/-- The `for attempt in range(1, max_retries + 1)` loop of `_crawl_article`
(lines 165–196) plus the post-loop failure caching (lines 198–199).
`rem` counts the attempts left. -/
def crawlLoop (oracle : Nat → FcOutcome) (url : String) :
    Nat → Nat → FetchState → String × FetchState
  | _attempt, 0, st => ("", { st with articleCache := cacheSet st.articleCache url "" })
  | attempt, rem + 1, st =>
    let st1 := waitMinF st
    let n := st1.fcCalls.length
    let st2 := { st1 with fcCalls := st1.fcCalls ++ [st1.clock] }
    match oracle n with
    | .ok result =>
      let text := fcExtractText result
      (text, { st2 with articleCache := cacheSet st2.articleCache url text })
    | .err msg =>
      if isRateLimitMsg msg then
        crawlLoop oracle url (attempt + 1) rem
          (sleepF st2 (FIRECRAWL_MIN_INTERVAL * attempt))
      else
        ("", { st2 with articleCache := cacheSet st2.articleCache url "" })

/-- `_crawl_article` (check_dric.py, lines 145–199) with its default
`max_retries = 3`; `delay_base = _FIRECRAWL_MIN_INTERVAL` (line 163),
so the retry backoff is `2 * attempt`. -/
def crawlArticle (oracle : Nat → FcOutcome) (st : FetchState) (url : String) :
    String × FetchState :=
  match st.articleCache.lookup url with
  | some t => (t, st)
  | none => crawlLoop oracle url 1 FIRECRAWL_MAX_RETRIES st

/-- Stand-in for `hashlib.sha256(text.encode("utf-8")).hexdigest()`: a
deterministic function of the exact text, so the cache is keyed by content —
byte-identical texts share a key (hash collisions between distinct texts are
disregarded). -/
def sha256Hex (s : String) : String := s

/-- Process state touched by `_ask_dric`: `_DRIC_CACHE`, `_LAST_GROQ_CALL`,
the virtual clock, and the two traces. -/
structure GroqState where
  dricCache : List (String × String)
  lastGroqCall : Option ℚ
  clock : ℚ
  gqCalls : List ℚ
  sleeps : List ℚ
deriving DecidableEq

/-- Module-load state: empty cache, `_LAST_GROQ_CALL = None`. -/
def initGroqState : GroqState :=
  { dricCache := [], lastGroqCall := none, clock := 0, gqCalls := [], sleeps := [] }

/-- `time.sleep(d)` observed on the classifier's state. -/
def sleepG (st : GroqState) (d : ℚ) : GroqState :=
  { st with clock := st.clock + d, sleeps := st.sleeps ++ [d] }

/-- Lines 216–219: sleep the remaining delta since `_LAST_GROQ_CALL`. -/
def waitMinG (st : GroqState) : GroqState :=
  match st.lastGroqCall with
  | none => st
  | some t =>
    if st.clock - t < GROQ_MIN_INTERVAL then
      sleepG st (GROQ_MIN_INTERVAL - (st.clock - t))
    else st

/-- `(resp_msg.content or "").strip().upper()` (line 226). -/
def normalizeReply (content : Option String) : String :=
  String.mk ((stripChars (content.getD "").data).map Char.toUpper)

/-- `answer_raw.startswith("YES")` (line 227). -/
def startsWithYES (s : String) : Bool := "YES".data.isPrefixOf s.data

/-- The `for attempt in range(1, max_retries + 1)` loop of `_ask_dric`
(lines 214–241) plus the post-loop failure caching (lines 243–244):
`_LAST_GROQ_CALL = time.monotonic()` is set on every attempt just before the
request (line 224); the retry backoff is `1.5 * attempt` (line 235). -/
def askLoop (oracle : Nat → GqOutcome) (key : String) :
    Nat → Nat → GroqState → String × GroqState
  | _attempt, 0, st => ("NO", { st with dricCache := cacheSet st.dricCache key "NO" })
  | attempt, rem + 1, st =>
    let st1 := waitMinG st
    let n := st1.gqCalls.length
    let st2 := { st1 with lastGroqCall := some st1.clock, gqCalls := st1.gqCalls ++ [st1.clock] }
    match oracle n with
    | .ok content =>
      let answer := if startsWithYES (normalizeReply content) then "YES" else "NO"
      (answer, { st2 with dricCache := cacheSet st2.dricCache key answer })
    | .err msg =>
      if isRateLimitMsg msg then
        askLoop oracle key (attempt + 1) rem (sleepG st2 ((3 / 2 : ℚ) * attempt))
      else
        ("NO", { st2 with dricCache := cacheSet st2.dricCache key "NO" })

/-- `_ask_dric` (check_dric.py, lines 202–244) with its default
`max_retries = 4`: empty text short-circuits to `"NO"` (lines 205–206,
Python falsiness of `""`), then the digest cache is consulted (lines 208–210),
then the retry loop runs. -/
def askDric (oracle : Nat → GqOutcome) (st : GroqState) (text : String) :
    String × GroqState :=
  if text = "" then ("NO", st)
  else
    match st.dricCache.lookup (sha256Hex text) with
    | some a => (a, st)
    | none => askLoop oracle (sha256Hex text) 1 GROQ_MAX_RETRIES st

/-- Input row of the classification stage (raw_publications.csv columns). -/
structure PubRow where
  authors : String
  title : String
  year : String
  scholar_link : String
deriving DecidableEq

/-- Record emitted by `_process_row` (lines 256–262 and 279–285). -/
structure OutRecord where
  authors : String
  title : String
  year : String
  scholar_link : String
  dric : String
deriving DecidableEq

/-- The record `_process_row` builds for a given `dric` value. -/
def mkOut (row : PubRow) (dric : String) : OutRecord :=
  { authors := row.authors, title := row.title, year := row.year,
    scholar_link := row.scholar_link, dric := dric }

/-- `_process_row` (check_dric.py, lines 248–285).  The link resolver
`_extract_article_url` is browser glue; its outcome is the `articleUrl`
parameter (`None` or a URL; `if not article_url` also treats `""` as
unresolved).  The fetcher and classifier run on explicit state so that
"was the service invoked" is observable in the traces. -/
def processRow (articleUrl : Option String) (row : PubRow)
    (fcOracle : Nat → FcOutcome) (gqOracle : Nat → GqOutcome)
    (fs : FetchState) (gs : GroqState) : OutRecord × FetchState × GroqState :=
  if pyTruthy articleUrl = false then
    (mkOut row "NF", fs, gs)
  else
    match crawlArticle fcOracle fs (articleUrl.getD "") with
    | (articleText, fs2) =>
      if articleText ≠ "" then
        match askDric gqOracle gs articleText with
        | (ans, gs2) => (mkOut row ans, fs2, gs2)
      else
        (mkOut row "NF", fs2, gs)

example :
    (crawlArticle (fun _ => .ok (.dict (some "hello") none)) initFetchState "u").1
      = "hello" := by decide
example :
    (askDric (fun _ => .ok (some " yes, it does")) initGroqState "some text").1
      = "YES" := by decide
example :
    (askDric (fun _ => .ok (some "nope")) initGroqState "some text").1 = "NO" := by decide
example : isRateLimitMsg "HTTP 429 Too Many Requests" = true := by decide
example : isRateLimitMsg "Rate Limit exceeded" = true := by decide
example : isRateLimitMsg "auth failure" = false := by decide

/-- A Firecrawl service that always answers immediately with content. -/
def fcOkOracle : Nat → FcOutcome := fun _ => .ok (.dict (some "body") none)

/-- The fetcher state after two consecutive `_crawl_article` calls on fresh
URLs against an immediately-answering service, from the module-load state. -/
def twoFreshCrawlsState : FetchState :=
  (crawlArticle fcOkOracle ((crawlArticle fcOkOracle initFetchState "u1").2) "u2").2

/-! ## Helper lemmas -/

theorem testTable_getD (total k : Nat) (h : k < total) :
    (testTable total).getD k default = mkRow k := by
  simp [testTable, List.getD_eq_getElem?_getD, List.getElem?_map, List.getElem?_range, h]

theorem getD_cons_drop (rows : List Row) (i : Nat) (hi : i < rows.length) :
    rows.drop i = rows.getD i default :: rows.drop (i + 1) := by
  rw [List.drop_eq_getElem_cons hi]
  congr 1
  simp [List.getD_eq_getElem?_getD, List.getElem?_eq_getElem hi]

/-- The inner extraction loop, started at `i` with `fuel` iterations left,
stops at the first row whose parsed year is below the floor: if every row at
offsets `0, …, d-1` from `i` is keepable (unparseable year, or year at least
`year_min`) and the row at offset `d` parses below `year_min`, it returns the
accumulator extended by exactly the keepable slice, with the early-stop flag
set. -/
theorem extractAux_firstStop (rows : List Row) (ymin : Nat) :
    ∀ d i fuel acc, d < fuel → i + d < rows.length →
    (∀ k, k < d → keepRow ymin (rows.getD (i + k) default) = true) →
    stopRow ymin (rows.getD (i + d) default) = true →
    extractRowsAux rows ymin fuel i acc = (acc ++ ((rows.drop i).take d), true) := by
  intro d
  induction d with
  | zero =>
    intro i fuel acc hfuel _hlen _hkeep hstop
    match fuel, hfuel with
    | f + 1, _ =>
      rw [Nat.add_zero] at hstop
      unfold stopRow at hstop
      simp only [extractRowsAux]
      rcases hy : parseYear (rows.getD i default).year_text with _ | y
      · rw [hy] at hstop; simp at hstop
      · rw [hy] at hstop
        simp only [decide_eq_true_eq] at hstop
        simp [hstop]
  | succ e ih =>
    intro i fuel acc hfuel hlen hkeep hstop
    match fuel, hfuel with
    | f + 1, _ =>
      have hi : i < rows.length := by omega
      have hrow := hkeep 0 (by omega)
      rw [Nat.add_zero] at hrow
      unfold keepRow at hrow
      have hrec := ih (i + 1) f (acc ++ [rows.getD i default]) (by omega) (by omega)
        (by
          intro k hk
          have h2 := hkeep (k + 1) (by omega)
          rwa [show i + (k + 1) = i + 1 + k by omega] at h2)
        (by rwa [show i + (e + 1) = i + 1 + e by omega] at hstop)
      have hslice : (rows.drop i).take (e + 1)
          = rows.getD i default :: (rows.drop (i + 1)).take e := by
        rw [getD_cons_drop rows i hi, List.take_succ_cons]
      simp only [extractRowsAux]
      rcases hy : parseYear (rows.getD i default).year_text with _ | y
      · rw [hy] at hrow
        rw [hslice]
        show extractRowsAux rows ymin f (i + 1) (acc ++ [rows.getD i default]) = _
        rw [hrec]
        simp
      · rw [hy] at hrow
        simp only [decide_eq_true_eq] at hrow
        have hnlt : ¬ y < ymin := by omega
        rw [hslice]
        show (if y < ymin then (acc, true)
          else extractRowsAux rows ymin f (i + 1) (acc ++ [rows.getD i default])) = _
        rw [if_neg hnlt, hrec]
        simp

/-! ## Claim theorems -/

/-- C1: in `scrape_for_name`, the first extracted row whose parsed 4-digit
year is strictly below `year_min` causes an immediate return of the rows
collected so far, excluding that row, and rows with unparseable years are
collected without triggering the stop (first conjunct, stated for the inner
extraction loop `extractRows` over any window `[start, stop)`); in
particular, on a table whose row `N` has year `2025 − N` with
`year_min = 2020`, exactly rows 0–5 (years 2025…2020) are returned and row 6
(year 2019) is excluded, regardless of the total number of available rows
(second conjunct). -/
theorem scrape_early_stop_on_year_floor :
    (∀ rows ymin stop start acc j, start ≤ j → j < stop → j < List.length rows →
      (∀ k, start ≤ k → k < j → keepRow ymin (rows.getD k default) = true) →
      stopRow ymin (rows.getD j default) = true →
      extractRows rows ymin stop start acc
        = (acc ++ ((rows.drop start).take (j - start)), true))
    ∧ (∀ total, 7 ≤ total →
        scrape_for_name (testTable total) [total] 2020 2025 none
          = (testTable total).take 6) := by
  constructor
  · intro rows ymin stop start acc j hsj hjs hjl hkeep hstop
    unfold extractRows
    exact extractAux_firstStop rows ymin (j - start) start (stop - start) acc
      (by omega) (by omega)
      (fun k hk => by
        have := hkeep (start + k) (by omega) (by omega)
        exact this)
      (by rwa [show start + (j - start) = j by omega])
  · intro total htot
    have hext : extractRows (testTable total) 2020 total 0 []
        = ([] ++ (((testTable total).drop 0).take 6), true) := by
      unfold extractRows
      have := extractAux_firstStop (testTable total) 2020 6 0 total []
        (by omega)
        (by simp [testTable]; omega)
        (by
          intro k hk
          rw [Nat.zero_add, testTable_getD total k (by omega)]
          interval_cases k <;> decide)
        (by
          rw [Nat.zero_add, testTable_getD total 6 (by omega)]
          decide)
      simpa using this
    unfold scrape_for_name scrapeLoop
    rw [show ((-1 : Int) + 1).toNat = 0 by decide]
    simp only [hext]
    simp

theorem scrape_early_stop_on_year_floor_witness :
    scrape_for_name (testTable 9) [9] 2020 2025 none = (testTable 9).take 6 :=
  scrape_early_stop_on_year_floor.2 9 (by norm_num)

/-- C2 (code bug): the scroll loop is claimed to process every newly rendered
row index exactly once — when the rendered count grows from `c` to `c'`, the
indices `[c, c')`.  The code instead processes `[c+1, c')`: `last_count` is
set to the previous count (line 102) and the next extraction starts at
`last_count + 1` (line 78), so the row at index `c` itself is skipped on
every iteration after the first, contradicting the source's own
"extract any newly rendered rows" comment (line 77).  Evaluated on a
4-row table (all years 2025, no year-floor stop) whose rendered count goes
2 → 4: the scraper returns rows 0, 1 and 3 — row 2 is never extracted. -/
theorem scrape_scroll_skips_boundary_row :
    scrape_for_name (flatTable 4) [2, 4] 2020 2025 none
        = [flatRow 0, flatRow 1, flatRow 3]
    ∧ flatRow 2 ∉ scrape_for_name (flatTable 4) [2, 4] 2020 2025 none := by
  constructor
  · decide
  · decide

/-- C3 (code bug): `_crawl_article` is claimed to record each invocation time
in `_LAST_FIRECRAWL_CALL` and to sleep whenever a new invocation arrives
within the minimum interval.  The function declares the global and reads it
(lines 151, 166–169) but never assigns it, so the timestamp stays `None`
forever, the sleep branch never fires, and two consecutive fetches of fresh
URLs issue their Firecrawl requests back to back: starting from the
module-load state, both requests carry timestamp 0 (closer than the 2-second
minimum interval), no sleep is recorded, and `_LAST_FIRECRAWL_CALL` is still
`None` afterwards. -/
theorem crawlArticle_never_records_last_call :
    twoFreshCrawlsState.fcCalls = [0, 0]
    ∧ twoFreshCrawlsState.lastFirecrawlCall = none
    ∧ twoFreshCrawlsState.sleeps = [] := by
  refine ⟨by decide, by decide, by decide⟩

/-- C8 (counterexample): for the single-token name `"Plato"` the claimed
return value is exactly `["Plato"]`, the initial-plus-token variant being
"filtered as a duplicate"; but that variant is `"P Plato"`, which is not a
duplicate of `"Plato"`, so the code returns the two-element list. -/
theorem build_queries_single_token_not_singleton :
    build_queries "Plato" ≠ ["Plato"] := by decide

/-- C8 (amended): for a single-token name the call does not raise and returns
the token followed by the (non-degenerate) initial-plus-token variant:
`build_queries "Plato" = ["Plato", "P Plato"]`. -/
theorem build_queries_single_token :
    build_queries "Plato" = ["Plato", "P Plato"] := by decide

/-! ### Period-parsing lemmas (C9) -/

theorem findAll4_eq_nil_iff (l : List Char) : findAll4 l = [] ↔ hasFour l = false := by
  match l with
  | [] => simp [findAll4, hasFour]
  | [c1] => simp [findAll4, hasFour]
  | [c1, c2] => simp [findAll4, hasFour]
  | [c1, c2, c3] => simp [findAll4, hasFour]
  | c1 :: c2 :: c3 :: c4 :: rest =>
    by_cases h : (c1.isDigit && c2.isDigit && c3.isDigit && c4.isDigit) = true
    · simp [findAll4, hasFour, h]
    · have ih := findAll4_eq_nil_iff (c2 :: c3 :: c4 :: rest)
      simp only [Bool.not_eq_true] at h
      simp [findAll4, hasFour, h, ih]

theorem foldl_min_le (l : List Nat) :
    ∀ a, l.foldl Nat.min a ≤ a ∧ ∀ y ∈ l, l.foldl Nat.min a ≤ y := by
  induction l with
  | nil => simp
  | cons c t ih =>
    intro a
    obtain ⟨h1, h2⟩ := ih (Nat.min a c)
    refine ⟨le_trans h1 (Nat.min_le_left a c), ?_⟩
    intro y hy
    rcases List.mem_cons.mp hy with rfl | hy
    · exact le_trans h1 (Nat.min_le_right a y)
    · exact h2 y hy

theorem foldl_min_mem (l : List Nat) :
    ∀ a, l.foldl Nat.min a = a ∨ l.foldl Nat.min a ∈ l := by
  induction l with
  | nil => simp
  | cons c t ih =>
    intro a
    rcases ih (Nat.min a c) with h | h
    · rcases Nat.le_total a c with hac | hca
      · left
        rw [List.foldl_cons, h]
        show (if a ≤ c then a else c) = a
        exact if_pos hac
      · right
        rw [List.foldl_cons, h,
          show Nat.min a c = c by show (if a ≤ c then a else c) = c; split <;> omega]
        exact List.mem_cons_self c t
    · right
      rw [List.foldl_cons]
      exact List.mem_cons_of_mem c h

theorem foldl_max_le (l : List Nat) :
    ∀ a, a ≤ l.foldl Nat.max a ∧ ∀ y ∈ l, y ≤ l.foldl Nat.max a := by
  induction l with
  | nil => simp
  | cons c t ih =>
    intro a
    obtain ⟨h1, h2⟩ := ih (Nat.max a c)
    refine ⟨le_trans (Nat.le_max_left a c) h1, ?_⟩
    intro y hy
    rcases List.mem_cons.mp hy with rfl | hy
    · exact le_trans (Nat.le_max_right a y) h1
    · exact h2 y hy

theorem foldl_max_mem (l : List Nat) :
    ∀ a, l.foldl Nat.max a = a ∨ l.foldl Nat.max a ∈ l := by
  induction l with
  | nil => simp
  | cons c t ih =>
    intro a
    rcases ih (Nat.max a c) with h | h
    · rcases Nat.le_total a c with hac | hca
      · right
        rw [List.foldl_cons, h,
          show Nat.max a c = c by show (if a ≤ c then c else a) = c; split <;> omega]
        exact List.mem_cons_self c t
      · left
        rw [List.foldl_cons, h]
        show (if a ≤ c then c else a) = a
        split <;> omega
    · right
      rw [List.foldl_cons]
      exact List.mem_cons_of_mem c h

/-- C9: `fetch_period` extracts all 4-digit numbers from the period string
and takes their minimum and maximum as `(year_min, year_max)`:
`"2016-2017" ↦ (2016, 2017)`, `"2020" ↦ (2020, 2020)`; a string with no
four consecutive digits yields the parse failure (`ValueError`, raised at
lines 200–202 before the browser block at line 208 is entered); and whenever
parsing succeeds the bounds are a member-minimum and member-maximum of the
extracted years. -/
theorem fetch_period_parses_year_bounds :
    fetch_period_bounds "2016-2017" = some (2016, 2017)
    ∧ fetch_period_bounds "2020" = some (2020, 2020)
    ∧ (∀ s, hasFour s.data = false → fetch_period_bounds s = none)
    ∧ (∀ s a b, fetch_period_bounds s = some (a, b) →
        (a ∈ periodYears s ∧ ∀ y ∈ periodYears s, a ≤ y)
        ∧ (b ∈ periodYears s ∧ ∀ y ∈ periodYears s, y ≤ b)) := by
  refine ⟨by decide, by decide, ?_, ?_⟩
  · intro s h
    have h4 : findAll4 s.data = [] := (findAll4_eq_nil_iff s.data).mpr h
    simp [fetch_period_bounds, periodYears, h4]
  · intro s a b hab
    unfold fetch_period_bounds at hab
    rcases hp : periodYears s with _ | ⟨y, _ | ⟨z, zs⟩⟩ <;> rw [hp] at hab
    · simp at hab
    · simp only [Option.some.injEq, Prod.mk.injEq] at hab
      obtain ⟨rfl, rfl⟩ := hab
      simp
    · simp only [Option.some.injEq, Prod.mk.injEq] at hab
      obtain ⟨rfl, rfl⟩ := hab
      constructor
      · constructor
        · rcases foldl_min_mem (y :: z :: zs) y with h | h
          · rw [h]; exact List.mem_cons_self y (z :: zs)
          · exact h
        · exact (foldl_min_le (y :: z :: zs) y).2
      · constructor
        · rcases foldl_max_mem (y :: z :: zs) y with h | h
          · rw [h]; exact List.mem_cons_self y (z :: zs)
          · exact h
        · exact (foldl_max_le (y :: z :: zs) y).2

theorem fetch_period_parses_year_bounds_witness :
    fetch_period_bounds "no-year-here" = none :=
  fetch_period_parses_year_bounds.2.2.1 "no-year-here" (by decide)

/-! ### Variant-order lemmas (C7) -/

theorem mk_space_ne_empty (a b : List Char) : String.mk (a ++ ' ' :: b) ≠ "" := by
  intro h
  have h2 := congrArg String.data h
  simp at h2

theorem foldl_dedupNE_eq (G : List String) (hne : ∀ v ∈ G, v ≠ "") :
    ∀ acc, G.foldl (fun acc v => if v ≠ "" ∧ v ∉ acc then acc ++ [v] else acc) acc
      = G.foldl (fun acc v => if v ∉ acc then acc ++ [v] else acc) acc := by
  induction G with
  | nil => intro _; rfl
  | cons c t ih =>
    intro acc
    have hc : c ≠ "" := hne c (List.mem_cons_self c t)
    have ht : ∀ v ∈ t, v ≠ "" := fun v hv => hne v (List.mem_cons_of_mem c hv)
    simp only [List.foldl_cons, hc, ne_eq, not_false_eq_true, true_and]
    exact ih ht _

theorem mem_foldl_dedup (G : List String) :
    ∀ acc v, v ∈ acc ∨ v ∈ G →
      v ∈ G.foldl (fun acc v => if v ∉ acc then acc ++ [v] else acc) acc := by
  induction G with
  | nil =>
    intro acc v h
    rcases h with h | h
    · exact h
    · simp at h
  | cons c t ih =>
    intro acc v h
    simp only [List.foldl_cons]
    by_cases hc : c ∉ acc
    · rw [if_pos hc]
      apply ih
      rcases h with h | h
      · exact Or.inl (List.mem_append_left _ h)
      · rcases List.mem_cons.mp h with rfl | h
        · exact Or.inl (by simp)
        · exact Or.inr h
    · rw [if_neg hc]
      apply ih
      rcases h with h | h
      · exact Or.inl h
      · rcases List.mem_cons.mp h with rfl | h
        · exact Or.inl (by simpa using hc)
        · exact Or.inr h

theorem foldl_addMissing_id (G : List String) :
    ∀ acc, (∀ v ∈ G, v ∈ acc) →
      G.foldl (fun acc v => if v ∉ acc then acc ++ [v] else acc) acc = acc := by
  induction G with
  | nil => intro _ _; rfl
  | cons c t ih =>
    intro acc h
    simp only [List.foldl_cons]
    rw [if_neg (not_not_intro (h c (List.mem_cons_self c t)))]
    exact ih acc fun v hv => h v (List.mem_cons_of_mem c hv)

/-- The two dedup passes of `build_queries` collapse to a single
first-occurrence dedup when every candidate variant is nonempty: the
`if v and v not in ordered` filter never drops on emptiness, and the
set-completion pass appends nothing. -/
theorem buildFolds_eq_dedupFirst (G : List String) (hne : ∀ v ∈ G, v ≠ "") :
    appendMissing (orderedDedupNE G) G = dedupFirst G := by
  unfold appendMissing orderedDedupNE dedupFirst
  rw [foldl_dedupNE_eq G hne []]
  exact foldl_addMissing_id G _ fun v hv => mem_foldl_dedup G [] v (Or.inr hv)

theorem mem_variantGroups (head : String) (first lastTok : List Char)
    (middles : List (List Char)) (v : String) :
    v ∈ variantGroups head first lastTok middles →
    v = head ∨ ∃ a b, v = String.mk (a ++ ' ' :: b) := by
  unfold variantGroups
  intro hv
  simp only [List.mem_append, List.mem_cons, List.mem_map, List.not_mem_nil,
    or_false] at hv
  rcases hv with (((h | h) | ⟨m, _, h⟩) | h) | h
  · exact Or.inl h
  · exact Or.inr ⟨_, _, h⟩
  · exact Or.inr ⟨_, _, h.symm⟩
  · split at h
    · simp only [List.mem_singleton] at h
      exact Or.inr ⟨_, _, h⟩
    · exact absurd h (List.not_mem_nil v)
  · split at h
    · simp only [List.mem_singleton] at h
      exact Or.inr ⟨_, _, h⟩
    · exact absurd h (List.not_mem_nil v)

theorem variantGroups_entries_ne (head : String) (first lastTok : List Char)
    (middles : List (List Char)) (hh : head ≠ "") :
    ∀ v ∈ variantGroups head first lastTok middles, v ≠ "" := by
  intro v hv
  rcases mem_variantGroups head first lastTok middles v hv with rfl | ⟨a, b, rfl⟩
  · exact hh
  · exact mk_space_ne_empty a b

/-- C7: for a multi-token full name carrying no surrounding whitespace,
`build_queries` returns exactly the spec's five variant groups — original
full name, first-initial + last, each middle-initial + last left to right,
concatenated initials + last when nonempty, first name + middle-initials +
last-initial when middles exist — deduplicated preserving first occurrence
(first conjunct, against the spec-worded `specOrderedVariants`); in
particular `"Kwame Asante Boateng"` yields exactly
`["Kwame Asante Boateng", "K Boateng", "A Boateng", "KA Boateng", "Kwame AB"]`,
with no duplicates. -/
theorem build_queries_spec_order :
    (∀ name : String, stripChars name.data = name.data → name.data ≠ [] →
      2 ≤ (pySplitWs name.data).length →
      build_queries name = dedupFirst (specOrderedVariants name))
    ∧ build_queries "Kwame Asante Boateng"
        = ["Kwame Asante Boateng", "K Boateng", "A Boateng", "KA Boateng", "Kwame AB"]
    ∧ (build_queries "Kwame Asante Boateng").Nodup := by
  refine ⟨?_, by decide, by decide⟩
  intro name h1 h3 h2
  have hname : name ≠ "" := by
    intro h
    rw [h] at h3
    exact h3 rfl
  rcases hp : pySplitWs name.data with _ | ⟨first, rest⟩
  · rw [hp] at h2; simp at h2
  · unfold build_queries specOrderedVariants
    simp only [hp, h1]
    rw [show String.mk name.data = name from rfl]
    exact buildFolds_eq_dedupFirst _
      (variantGroups_entries_ne name first _ _ hname)

theorem build_queries_spec_order_witness :
    build_queries "Kwame Asante Boateng"
      = dedupFirst (specOrderedVariants "Kwame Asante Boateng") :=
  build_queries_spec_order.1 "Kwame Asante Boateng" (by decide) (by decide) (by decide)

/-! ### State-projection lemmas for the fetch/classify pipeline -/

theorem waitMinF_articleCache (st : FetchState) :
    (waitMinF st).articleCache = st.articleCache := by
  unfold waitMinF
  cases st.lastFirecrawlCall
  · rfl
  · dsimp only
    split <;> rfl

theorem waitMinF_fcCalls (st : FetchState) : (waitMinF st).fcCalls = st.fcCalls := by
  unfold waitMinF
  cases st.lastFirecrawlCall
  · rfl
  · dsimp only
    split <;> rfl

theorem waitMinF_none (st : FetchState) (h : st.lastFirecrawlCall = none) :
    waitMinF st = st := by
  unfold waitMinF
  rw [h]

theorem waitMinG_dricCache (st : GroqState) : (waitMinG st).dricCache = st.dricCache := by
  unfold waitMinG
  cases st.lastGroqCall
  · rfl
  · dsimp only
    split <;> rfl

theorem waitMinG_gqCalls (st : GroqState) : (waitMinG st).gqCalls = st.gqCalls := by
  unfold waitMinG
  cases st.lastGroqCall
  · rfl
  · dsimp only
    split <;> rfl

theorem waitMinG_none (st : GroqState) (h : st.lastGroqCall = none) :
    waitMinG st = st := by
  unfold waitMinG
  rw [h]

theorem lookup_cacheSet_self (c : List (String × String)) (k v : String) :
    (cacheSet c k v).lookup k = some v := by
  simp [cacheSet, List.lookup_cons]

theorem lookup_cacheSet_ne (c : List (String × String)) (k v k2 : String) (h : k2 ≠ k) :
    (cacheSet c k v).lookup k2 = c.lookup k2 := by
  simp [cacheSet, List.lookup_cons, beq_eq_false_iff_ne.mpr h]

theorem lookup_mem (l : List (String × String)) (k v : String) :
    l.lookup k = some v → (k, v) ∈ l := by
  induction l with
  | nil => intro h; simp [List.lookup] at h
  | cons p t ih =>
    obtain ⟨a, b⟩ := p
    intro h
    rw [List.lookup_cons] at h
    split at h
    · next heq =>
      simp only [Option.some.injEq] at h
      subst h
      have hk : k = a := by simpa using heq
      subst hk
      exact List.mem_cons_self _ _
    · exact List.mem_cons_of_mem _ (ih h)

/-- Whatever the Groq oracle does, the retry loop of `_ask_dric` only ever
produces `"YES"` or `"NO"`. -/
theorem askLoop_yes_no (o : Nat → GqOutcome) (key : String) :
    ∀ r a st, (askLoop o key a r st).1 = "YES" ∨ (askLoop o key a r st).1 = "NO" := by
  intro r
  induction r with
  | zero => intro a st; right; rfl
  | succ rem ih =>
    intro a st
    simp only [askLoop]
    rcases ho : o ((waitMinG st).gqCalls.length) with c | m
    · simp only [ho]
      split
      · left; rfl
      · right; rfl
    · simp only [ho]
      split
      · exact ih (a + 1) _
      · right; rfl

/-- C5: in `_process_row`, an unresolved link (the resolver returning null)
emits `dric = "NF"` and leaves both service states — caches, timestamps and
call traces — untouched, so neither the fetcher nor the classifier is
invoked; a resolved link whose fetched text is empty emits `dric = "NF"`
with the classifier state untouched; and a resolved link with nonempty
fetched text emits exactly the classifier's answer for that text. -/
theorem processRow_nf_and_classify :
    (∀ row fo go fs gs, processRow none row fo go fs gs = (mkOut row "NF", fs, gs))
    ∧ (∀ (url : String) row fo go fs gs, url ≠ "" →
        (crawlArticle fo fs url).1 = "" →
        processRow (some url) row fo go fs gs
          = (mkOut row "NF", (crawlArticle fo fs url).2, gs))
    ∧ (∀ (url : String) row fo go fs gs, url ≠ "" →
        (crawlArticle fo fs url).1 ≠ "" →
        processRow (some url) row fo go fs gs
          = (mkOut row (askDric go gs (crawlArticle fo fs url).1).1,
             (crawlArticle fo fs url).2,
             (askDric go gs (crawlArticle fo fs url).1).2)) := by
  refine ⟨?_, ?_, ?_⟩
  · intro row fo go fs gs
    rfl
  · intro url row fo go fs gs hu ht
    unfold processRow
    rw [show pyTruthy (some url) = true by simp [pyTruthy, hu]]
    rcases hc : crawlArticle fo fs url with ⟨t, fs2⟩
    rw [hc] at ht
    simp only at ht
    subst ht
    simp [hc]
  · intro url row fo go fs gs hu ht
    unfold processRow
    rw [show pyTruthy (some url) = true by simp [pyTruthy, hu]]
    rcases hc : crawlArticle fo fs url with ⟨t, fs2⟩
    rw [hc] at ht
    simp only at ht
    rcases ha : askDric go gs t with ⟨ans, gs2⟩
    simp [hc, ht, ha]

theorem processRow_nf_and_classify_witness :
    processRow (some "u") { authors := "A", title := "T", year := "2020", scholar_link := "s" }
        fcOkOracle (fun _ => .ok (some "YES")) initFetchState initGroqState
      = (mkOut { authors := "A", title := "T", year := "2020", scholar_link := "s" }
          (askDric (fun _ => .ok (some "YES")) initGroqState
            (crawlArticle fcOkOracle initFetchState "u").1).1,
         (crawlArticle fcOkOracle initFetchState "u").2,
         (askDric (fun _ => .ok (some "YES")) initGroqState
            (crawlArticle fcOkOracle initFetchState "u").1).2) :=
  processRow_nf_and_classify.2.2 "u"
    { authors := "A", title := "T", year := "2020", scholar_link := "s" }
    fcOkOracle (fun _ => .ok (some "YES")) initFetchState initGroqState
    (by decide) (by decide)

/-- C6: `_ask_dric` on the empty string returns `"NO"` with the process state
(including the request trace) untouched, hence zero model invocations; on a
cache miss with nonempty text whose first request succeeds, it returns
`"YES"` exactly when the reply content — `None` coalesced to `""`, stripped,
uppercased — begins with `"YES"`, and `"NO"` otherwise; and whenever every
cached value is `"YES"`/`"NO"` (true from the empty module-load cache
onward), its return value is always `"YES"` or `"NO"`. -/
theorem askDric_reply_parsing :
    (∀ o gs, askDric o gs "" = ("NO", gs))
    ∧ (∀ o gs (text : String) content, text ≠ "" →
        gs.dricCache.lookup (sha256Hex text) = none →
        o gs.gqCalls.length = .ok content →
        (askDric o gs text).1
          = (if startsWithYES (normalizeReply content) then "YES" else "NO"))
    ∧ (∀ o gs (text : String),
        (∀ p ∈ gs.dricCache, p.2 = "YES" ∨ p.2 = "NO") →
        (askDric o gs text).1 = "YES" ∨ (askDric o gs text).1 = "NO") := by
  refine ⟨?_, ?_, ?_⟩
  · intro o gs
    rfl
  · intro o gs text content htext hlook ho
    unfold askDric
    rw [if_neg htext]
    simp only [hlook]
    rw [show GROQ_MAX_RETRIES = 3 + 1 from rfl]
    simp only [askLoop, waitMinG_gqCalls, ho]
  · intro o gs text hmem
    unfold askDric
    by_cases htext : text = ""
    · rw [if_pos htext]
      right
      rfl
    · rw [if_neg htext]
      rcases hl : gs.dricCache.lookup (sha256Hex text) with _ | a
      · simp only [hl]
        exact askLoop_yes_no o (sha256Hex text) GROQ_MAX_RETRIES 1 gs
      · simp only [hl]
        have hp := hmem (sha256Hex text, a) (lookup_mem _ _ _ hl)
        simpa using hp

theorem askDric_reply_parsing_witness :
    (askDric (fun _ => .ok (some "  yes, it acknowledges DRIC"))
        initGroqState "article text").1
      = (if startsWithYES
            (normalizeReply (some "  yes, it acknowledges DRIC"))
          then "YES" else "NO") :=
  askDric_reply_parsing.2.1 (fun _ => .ok (some "  yes, it acknowledges DRIC"))
    initGroqState "article text" (some "  yes, it acknowledges DRIC")
    (by decide) (by decide) (by decide)

/-- The retry loop of `_crawl_article` writes the article cache only under
its own URL: entries for any other URL are untouched. -/
theorem crawlLoop_cache_other (o : Nat → FcOutcome) (u2 url : String) (hne : u2 ≠ url) :
    ∀ r a st, ((crawlLoop o u2 a r st).2).articleCache.lookup url
      = st.articleCache.lookup url := by
  intro r
  induction r with
  | zero =>
    intro a st
    simp only [crawlLoop]
    exact lookup_cacheSet_ne _ _ _ _ (Ne.symm hne)
  | succ rem ih =>
    intro a st
    simp only [crawlLoop]
    rcases ho : o ((waitMinF st).fcCalls.length) with res | m
    · simp only [ho]
      rw [lookup_cacheSet_ne _ _ _ _ (Ne.symm hne)]
      simp [waitMinF_articleCache]
    · simp only [ho]
      split
      · rw [ih]
        simp [sleepF, waitMinF_articleCache]
      · rw [lookup_cacheSet_ne _ _ _ _ (Ne.symm hne)]
        simp [waitMinF_articleCache]

/-- The retry loop of `_ask_dric` writes the classification cache only under
its own digest key. -/
theorem askLoop_cache_other (o : Nat → GqOutcome) (k2 key : String) (hne : k2 ≠ key) :
    ∀ r a st, ((askLoop o k2 a r st).2).dricCache.lookup key
      = st.dricCache.lookup key := by
  intro r
  induction r with
  | zero =>
    intro a st
    simp only [askLoop]
    exact lookup_cacheSet_ne _ _ _ _ (Ne.symm hne)
  | succ rem ih =>
    intro a st
    simp only [askLoop]
    rcases ho : o ((waitMinG st).gqCalls.length) with c | m
    · simp only [ho]
      rw [lookup_cacheSet_ne _ _ _ _ (Ne.symm hne)]
      simp [waitMinG_dricCache]
    · simp only [ho]
      split
      · rw [ih]
        simp [sleepG, waitMinG_dricCache]
      · rw [lookup_cacheSet_ne _ _ _ _ (Ne.symm hne)]
        simp [waitMinG_dricCache]

/-- C10: after a non-throttling service error, the terminal failure value is
cached for the rest of the process.  For `_crawl_article`: a first-request
non-rate-limit error returns `""` with exactly one service request and stores
`""` under the URL; any call finding `""` cached for its URL returns it with
the whole state (traces included) unchanged, so the service is not contacted;
and calls for other URLs never disturb the entry.  Symmetrically for
`_ask_dric` with `"NO"` under the text's content digest. -/
theorem terminal_failures_cached_permanently :
    (∀ o fs (url : String) m,
        fs.articleCache.lookup url = none →
        o fs.fcCalls.length = .err m →
        isRateLimitMsg m = false →
        (crawlArticle o fs url).1 = ""
        ∧ ((crawlArticle o fs url).2).articleCache.lookup url = some ""
        ∧ ((crawlArticle o fs url).2).fcCalls.length = fs.fcCalls.length + 1)
    ∧ (∀ o2 fs (url : String),
        fs.articleCache.lookup url = some "" →
        crawlArticle o2 fs url = ("", fs))
    ∧ (∀ o2 fs (url u2 : String), u2 ≠ url →
        ((crawlArticle o2 fs u2).2).articleCache.lookup url
          = fs.articleCache.lookup url)
    ∧ (∀ o gs (text : String) m,
        text ≠ "" →
        gs.dricCache.lookup (sha256Hex text) = none →
        o gs.gqCalls.length = .err m →
        isRateLimitMsg m = false →
        (askDric o gs text).1 = "NO"
        ∧ ((askDric o gs text).2).dricCache.lookup (sha256Hex text) = some "NO"
        ∧ ((askDric o gs text).2).gqCalls.length = gs.gqCalls.length + 1)
    ∧ (∀ o2 gs (text : String),
        text ≠ "" →
        gs.dricCache.lookup (sha256Hex text) = some "NO" →
        askDric o2 gs text = ("NO", gs))
    ∧ (∀ o2 gs (text t2 : String), sha256Hex t2 ≠ sha256Hex text →
        ((askDric o2 gs t2).2).dricCache.lookup (sha256Hex text)
          = gs.dricCache.lookup (sha256Hex text)) := by
  refine ⟨?_, ?_, ?_, ?_, ?_, ?_⟩
  · intro o fs url m hl ho hnrl
    have hform : crawlArticle o fs url
        = ("", { waitMinF fs with
            fcCalls := (waitMinF fs).fcCalls ++ [(waitMinF fs).clock],
            articleCache := cacheSet (waitMinF fs).articleCache url "" }) := by
      unfold crawlArticle
      simp only [hl]
      rw [show FIRECRAWL_MAX_RETRIES = 2 + 1 from rfl]
      simp only [crawlLoop, waitMinF_fcCalls, ho, hnrl, Bool.false_eq_true, if_false]
    refine ⟨by rw [hform], ?_, ?_⟩
    · rw [hform]
      exact lookup_cacheSet_self _ _ _
    · rw [hform]
      simp [waitMinF_fcCalls]
  · intro o2 fs url hl
    unfold crawlArticle
    simp only [hl]
  · intro o2 fs url u2 hne
    unfold crawlArticle
    rcases hl : fs.articleCache.lookup u2 with _ | t
    · simp only [hl]
      exact crawlLoop_cache_other o2 u2 url hne FIRECRAWL_MAX_RETRIES 1 fs
    · simp only [hl]
  · intro o gs text m htext hl ho hnrl
    have hform : askDric o gs text
        = ("NO", { waitMinG gs with
            lastGroqCall := some (waitMinG gs).clock,
            gqCalls := (waitMinG gs).gqCalls ++ [(waitMinG gs).clock],
            dricCache := cacheSet (waitMinG gs).dricCache (sha256Hex text) "NO" }) := by
      unfold askDric
      rw [if_neg htext]
      simp only [hl]
      rw [show GROQ_MAX_RETRIES = 3 + 1 from rfl]
      simp only [askLoop, waitMinG_gqCalls, ho, hnrl, Bool.false_eq_true, if_false]
    refine ⟨by rw [hform], ?_, ?_⟩
    · rw [hform]
      exact lookup_cacheSet_self _ _ _
    · rw [hform]
      simp [waitMinG_gqCalls]
  · intro o2 gs text htext hl
    unfold askDric
    rw [if_neg htext]
    simp only [hl]
  · intro o2 gs text t2 hne
    unfold askDric
    by_cases ht2 : t2 = ""
    · rw [if_pos ht2]
    · rw [if_neg ht2]
      rcases hl : gs.dricCache.lookup (sha256Hex t2) with _ | a
      · simp only [hl]
        exact askLoop_cache_other o2 (sha256Hex t2) (sha256Hex text) hne
          GROQ_MAX_RETRIES 1 gs
      · simp only [hl]

/-- One throttled attempt of `_crawl_article`'s retry loop, when the
min-interval wait is a no-op: record the request, sleep `delay_base * attempt`
and move to the next attempt. -/
theorem crawlLoop_step_rl (o : Nat → FcOutcome) (url : String) (a rem : Nat)
    (st : FetchState) (m : String)
    (hwait : waitMinF st = st)
    (ho : o st.fcCalls.length = .err m)
    (hrl : isRateLimitMsg m = true) :
    crawlLoop o url a (rem + 1) st
      = crawlLoop o url (a + 1) rem
          { st with fcCalls := st.fcCalls ++ [st.clock],
                    clock := st.clock + FIRECRAWL_MIN_INTERVAL * (a : Nat),
                    sleeps := st.sleeps ++ [FIRECRAWL_MIN_INTERVAL * (a : Nat)] } := by
  simp only [crawlLoop, hwait, ho, hrl, if_true, sleepF]

theorem crawlLoop_exhaust (o : Nat → FcOutcome) (url : String) (a : Nat)
    (st : FetchState) :
    crawlLoop o url a 0 st
      = ("", { st with articleCache := cacheSet st.articleCache url "" }) := rfl

/-- One throttled attempt of `_ask_dric`'s retry loop, when the min-interval
wait is a no-op: set `_LAST_GROQ_CALL`, record the request, sleep
`1.5 * attempt` and move to the next attempt. -/
theorem askLoop_step_rl (o : Nat → GqOutcome) (key : String) (a rem : Nat)
    (st : GroqState) (m : String)
    (hwait : waitMinG st = st)
    (ho : o st.gqCalls.length = .err m)
    (hrl : isRateLimitMsg m = true) :
    askLoop o key a (rem + 1) st
      = askLoop o key (a + 1) rem
          { st with lastGroqCall := some st.clock,
                    gqCalls := st.gqCalls ++ [st.clock],
                    clock := st.clock + (3 / 2 : ℚ) * (a : Nat),
                    sleeps := st.sleeps ++ [(3 / 2 : ℚ) * (a : Nat)] } := by
  simp only [askLoop, hwait, ho, hrl, if_true, sleepG]

theorem askLoop_exhaust (o : Nat → GqOutcome) (key : String) (a : Nat)
    (st : GroqState) :
    askLoop o key a 0 st
      = ("NO", { st with dricCache := cacheSet st.dricCache key "NO" }) := rfl

/-- The min-interval wait of `_ask_dric` is a no-op when at least
`_GROQ_MIN_INTERVAL` has elapsed since the recorded last call. -/
theorem waitMinG_elapsed (st : GroqState) (t : ℚ) (h : st.lastGroqCall = some t)
    (hge : GROQ_MIN_INTERVAL ≤ st.clock - t) : waitMinG st = st := by
  unfold waitMinG
  simp only [h]
  rw [if_neg (not_lt.2 hge)]

/-- C4: retry behaviour of both service wrappers, from any state whose
last-call timestamp is unset (for `_crawl_article` that is every reachable
state, per C3).  Fetcher, all three attempts throttled: exactly 3 requests,
backoff sleeps of exactly `2·1, 2·2, 2·3` seconds between and after attempts,
terminal `""` cached under the URL and returned — no exception.  Fetcher,
first error non-throttling: immediate abort after the single request, `""`
cached and returned.  Classifier, all four attempts throttled: exactly 4
requests, backoff sleeps `1.5·1 … 1.5·4`, terminal `"NO"` cached under the
digest and returned.  Classifier, first error non-throttling: immediate
abort, `"NO"` cached and returned. -/
theorem service_retry_linear_backoff :
    (∀ o fs (url : String) m0 m1 m2,
        fs.articleCache.lookup url = none →
        fs.lastFirecrawlCall = none →
        o fs.fcCalls.length = .err m0 →
        o (fs.fcCalls.length + 1) = .err m1 →
        o (fs.fcCalls.length + 2) = .err m2 →
        isRateLimitMsg m0 = true → isRateLimitMsg m1 = true → isRateLimitMsg m2 = true →
        crawlArticle o fs url
          = ("", { articleCache := cacheSet fs.articleCache url "",
                   lastFirecrawlCall := none,
                   clock := fs.clock + 12,
                   fcCalls := fs.fcCalls ++ [fs.clock, fs.clock + 2, fs.clock + 6],
                   sleeps := fs.sleeps ++ [2, 4, 6] }))
    ∧ (∀ o fs (url : String) m,
        fs.articleCache.lookup url = none →
        fs.lastFirecrawlCall = none →
        o fs.fcCalls.length = .err m →
        isRateLimitMsg m = false →
        crawlArticle o fs url
          = ("", { fs with fcCalls := fs.fcCalls ++ [fs.clock],
                           articleCache := cacheSet fs.articleCache url "" }))
    ∧ (∀ o gs (text : String) m0 m1 m2 m3,
        text ≠ "" →
        gs.dricCache.lookup (sha256Hex text) = none →
        gs.lastGroqCall = none →
        o gs.gqCalls.length = .err m0 →
        o (gs.gqCalls.length + 1) = .err m1 →
        o (gs.gqCalls.length + 2) = .err m2 →
        o (gs.gqCalls.length + 3) = .err m3 →
        isRateLimitMsg m0 = true → isRateLimitMsg m1 = true →
        isRateLimitMsg m2 = true → isRateLimitMsg m3 = true →
        askDric o gs text
          = ("NO", { dricCache := cacheSet gs.dricCache (sha256Hex text) "NO",
                     lastGroqCall := some (gs.clock + 9),
                     clock := gs.clock + 15,
                     gqCalls := gs.gqCalls
                       ++ [gs.clock, gs.clock + 3 / 2, gs.clock + 9 / 2, gs.clock + 9],
                     sleeps := gs.sleeps ++ [3 / 2, 3, 9 / 2, 6] }))
    ∧ (∀ o gs (text : String) m,
        text ≠ "" →
        gs.dricCache.lookup (sha256Hex text) = none →
        gs.lastGroqCall = none →
        o gs.gqCalls.length = .err m →
        isRateLimitMsg m = false →
        askDric o gs text
          = ("NO", { gs with lastGroqCall := some gs.clock,
                             gqCalls := gs.gqCalls ++ [gs.clock],
                             dricCache := cacheSet gs.dricCache (sha256Hex text) "NO" })) := by
  refine ⟨?_, ?_, ?_, ?_⟩
  · intro o fs url m0 m1 m2 hl hlast h0 h1 h2 r0 r1 r2
    have h2x : o (fs.fcCalls.length + 1 + 1) = .err m2 := by
      rw [show fs.fcCalls.length + 1 + 1 = fs.fcCalls.length + 2 by omega]
      exact h2
    calc crawlArticle o fs url
        = crawlLoop o url 1 (2 + 1) fs := by
          unfold crawlArticle
          simp only [hl]
          rfl
      _ = crawlLoop o url 2 (1 + 1)
            { fs with fcCalls := fs.fcCalls ++ [fs.clock],
                      clock := fs.clock + FIRECRAWL_MIN_INTERVAL * (1 : Nat),
                      sleeps := fs.sleeps ++ [FIRECRAWL_MIN_INTERVAL * (1 : Nat)] } :=
          crawlLoop_step_rl o url 1 (1 + 1) fs m0 (waitMinF_none fs hlast) h0 r0
      _ = crawlLoop o url 3 (0 + 1)
            { fs with fcCalls := fs.fcCalls ++ [fs.clock]
                        ++ [fs.clock + FIRECRAWL_MIN_INTERVAL * (1 : Nat)],
                      clock := fs.clock + FIRECRAWL_MIN_INTERVAL * (1 : Nat)
                        + FIRECRAWL_MIN_INTERVAL * (2 : Nat),
                      sleeps := fs.sleeps ++ [FIRECRAWL_MIN_INTERVAL * (1 : Nat)]
                        ++ [FIRECRAWL_MIN_INTERVAL * (2 : Nat)] } :=
          crawlLoop_step_rl o url 2 (0 + 1)
            { fs with fcCalls := fs.fcCalls ++ [fs.clock],
                      clock := fs.clock + FIRECRAWL_MIN_INTERVAL * (1 : Nat),
                      sleeps := fs.sleeps ++ [FIRECRAWL_MIN_INTERVAL * (1 : Nat)] }
            m1 (waitMinF_none _ (by simpa using hlast)) (by simpa using h1) r1
      _ = crawlLoop o url 4 0
            { fs with fcCalls := fs.fcCalls ++ [fs.clock]
                        ++ [fs.clock + FIRECRAWL_MIN_INTERVAL * (1 : Nat)]
                        ++ [fs.clock + FIRECRAWL_MIN_INTERVAL * (1 : Nat)
                            + FIRECRAWL_MIN_INTERVAL * (2 : Nat)],
                      clock := fs.clock + FIRECRAWL_MIN_INTERVAL * (1 : Nat)
                        + FIRECRAWL_MIN_INTERVAL * (2 : Nat)
                        + FIRECRAWL_MIN_INTERVAL * (3 : Nat),
                      sleeps := fs.sleeps ++ [FIRECRAWL_MIN_INTERVAL * (1 : Nat)]
                        ++ [FIRECRAWL_MIN_INTERVAL * (2 : Nat)]
                        ++ [FIRECRAWL_MIN_INTERVAL * (3 : Nat)] } :=
          crawlLoop_step_rl o url 3 0
            { fs with fcCalls := fs.fcCalls ++ [fs.clock]
                        ++ [fs.clock + FIRECRAWL_MIN_INTERVAL * (1 : Nat)],
                      clock := fs.clock + FIRECRAWL_MIN_INTERVAL * (1 : Nat)
                        + FIRECRAWL_MIN_INTERVAL * (2 : Nat),
                      sleeps := fs.sleeps ++ [FIRECRAWL_MIN_INTERVAL * (1 : Nat)]
                        ++ [FIRECRAWL_MIN_INTERVAL * (2 : Nat)] }
            m2 (waitMinF_none _ (by simpa using hlast)) (by simpa using h2x) r2
      _ = ("", { articleCache := cacheSet fs.articleCache url "",
                 lastFirecrawlCall := none,
                 clock := fs.clock + 12,
                 fcCalls := fs.fcCalls ++ [fs.clock, fs.clock + 2, fs.clock + 6],
                 sleeps := fs.sleeps ++ [2, 4, 6] }) := by
          rw [crawlLoop_exhaust]
          norm_num [FIRECRAWL_MIN_INTERVAL, hlast, List.append_assoc]
          constructor <;> ring
  · intro o fs url m hl hlast ho hnrl
    unfold crawlArticle
    simp only [hl]
    rw [show FIRECRAWL_MAX_RETRIES = 2 + 1 from rfl]
    simp only [crawlLoop, waitMinF_none fs hlast, ho, hnrl, Bool.false_eq_true, if_false]
  · intro o gs text m0 m1 m2 m3 htext hl hlast h0 h1 h2 h3 r0 r1 r2 r3
    have h2x : o (gs.gqCalls.length + 1 + 1) = .err m2 := by
      rw [show gs.gqCalls.length + 1 + 1 = gs.gqCalls.length + 2 by omega]
      exact h2
    have h3x : o (gs.gqCalls.length + 1 + 1 + 1) = .err m3 := by
      rw [show gs.gqCalls.length + 1 + 1 + 1 = gs.gqCalls.length + 3 by omega]
      exact h3
    calc askDric o gs text
        = askLoop o (sha256Hex text) 1 (3 + 1) gs := by
          unfold askDric
          rw [if_neg htext]
          simp only [hl]
          rfl
      _ = askLoop o (sha256Hex text) 2 (2 + 1)
            { gs with lastGroqCall := some gs.clock,
                      gqCalls := gs.gqCalls ++ [gs.clock],
                      clock := gs.clock + (3 / 2 : ℚ) * (1 : Nat),
                      sleeps := gs.sleeps ++ [(3 / 2 : ℚ) * (1 : Nat)] } :=
          askLoop_step_rl o (sha256Hex text) 1 (2 + 1) gs m0
            (waitMinG_none gs hlast) h0 r0
      _ = askLoop o (sha256Hex text) 3 (1 + 1)
            { gs with lastGroqCall := some (gs.clock + (3 / 2 : ℚ) * (1 : Nat)),
                      gqCalls := gs.gqCalls ++ [gs.clock]
                        ++ [gs.clock + (3 / 2 : ℚ) * (1 : Nat)],
                      clock := gs.clock + (3 / 2 : ℚ) * (1 : Nat)
                        + (3 / 2 : ℚ) * (2 : Nat),
                      sleeps := gs.sleeps ++ [(3 / 2 : ℚ) * (1 : Nat)]
                        ++ [(3 / 2 : ℚ) * (2 : Nat)] } :=
          askLoop_step_rl o (sha256Hex text) 2 (1 + 1)
            { gs with lastGroqCall := some gs.clock,
                      gqCalls := gs.gqCalls ++ [gs.clock],
                      clock := gs.clock + (3 / 2 : ℚ) * (1 : Nat),
                      sleeps := gs.sleeps ++ [(3 / 2 : ℚ) * (1 : Nat)] }
            m1 (waitMinG_elapsed _ gs.clock rfl (by norm_num [GROQ_MIN_INTERVAL]))
            (by simpa using h1) r1
      _ = askLoop o (sha256Hex text) 4 (0 + 1)
            { gs with lastGroqCall := some (gs.clock + (3 / 2 : ℚ) * (1 : Nat)
                        + (3 / 2 : ℚ) * (2 : Nat)),
                      gqCalls := gs.gqCalls ++ [gs.clock]
                        ++ [gs.clock + (3 / 2 : ℚ) * (1 : Nat)]
                        ++ [gs.clock + (3 / 2 : ℚ) * (1 : Nat) + (3 / 2 : ℚ) * (2 : Nat)],
                      clock := gs.clock + (3 / 2 : ℚ) * (1 : Nat)
                        + (3 / 2 : ℚ) * (2 : Nat) + (3 / 2 : ℚ) * (3 : Nat),
                      sleeps := gs.sleeps ++ [(3 / 2 : ℚ) * (1 : Nat)]
                        ++ [(3 / 2 : ℚ) * (2 : Nat)] ++ [(3 / 2 : ℚ) * (3 : Nat)] } :=
          askLoop_step_rl o (sha256Hex text) 3 (0 + 1)
            { gs with lastGroqCall := some (gs.clock + (3 / 2 : ℚ) * (1 : Nat)),
                      gqCalls := gs.gqCalls ++ [gs.clock]
                        ++ [gs.clock + (3 / 2 : ℚ) * (1 : Nat)],
                      clock := gs.clock + (3 / 2 : ℚ) * (1 : Nat)
                        + (3 / 2 : ℚ) * (2 : Nat),
                      sleeps := gs.sleeps ++ [(3 / 2 : ℚ) * (1 : Nat)]
                        ++ [(3 / 2 : ℚ) * (2 : Nat)] }
            m2 (waitMinG_elapsed _ (gs.clock + (3 / 2 : ℚ) * (1 : Nat)) rfl
              (by norm_num [GROQ_MIN_INTERVAL]))
            (by simpa using h2x) r2
      _ = askLoop o (sha256Hex text) 5 0
            { gs with lastGroqCall := some (gs.clock + (3 / 2 : ℚ) * (1 : Nat)
                        + (3 / 2 : ℚ) * (2 : Nat) + (3 / 2 : ℚ) * (3 : Nat)),
                      gqCalls := gs.gqCalls ++ [gs.clock]
                        ++ [gs.clock + (3 / 2 : ℚ) * (1 : Nat)]
                        ++ [gs.clock + (3 / 2 : ℚ) * (1 : Nat) + (3 / 2 : ℚ) * (2 : Nat)]
                        ++ [gs.clock + (3 / 2 : ℚ) * (1 : Nat) + (3 / 2 : ℚ) * (2 : Nat)
                            + (3 / 2 : ℚ) * (3 : Nat)],
                      clock := gs.clock + (3 / 2 : ℚ) * (1 : Nat) + (3 / 2 : ℚ) * (2 : Nat)
                        + (3 / 2 : ℚ) * (3 : Nat) + (3 / 2 : ℚ) * (4 : Nat),
                      sleeps := gs.sleeps ++ [(3 / 2 : ℚ) * (1 : Nat)]
                        ++ [(3 / 2 : ℚ) * (2 : Nat)] ++ [(3 / 2 : ℚ) * (3 : Nat)]
                        ++ [(3 / 2 : ℚ) * (4 : Nat)] } :=
          askLoop_step_rl o (sha256Hex text) 4 0
            { gs with lastGroqCall := some (gs.clock + (3 / 2 : ℚ) * (1 : Nat)
                        + (3 / 2 : ℚ) * (2 : Nat)),
                      gqCalls := gs.gqCalls ++ [gs.clock]
                        ++ [gs.clock + (3 / 2 : ℚ) * (1 : Nat)]
                        ++ [gs.clock + (3 / 2 : ℚ) * (1 : Nat) + (3 / 2 : ℚ) * (2 : Nat)],
                      clock := gs.clock + (3 / 2 : ℚ) * (1 : Nat)
                        + (3 / 2 : ℚ) * (2 : Nat) + (3 / 2 : ℚ) * (3 : Nat),
                      sleeps := gs.sleeps ++ [(3 / 2 : ℚ) * (1 : Nat)]
                        ++ [(3 / 2 : ℚ) * (2 : Nat)] ++ [(3 / 2 : ℚ) * (3 : Nat)] }
            m3 (waitMinG_elapsed _
              (gs.clock + (3 / 2 : ℚ) * (1 : Nat) + (3 / 2 : ℚ) * (2 : Nat)) rfl
              (by norm_num [GROQ_MIN_INTERVAL]))
            (by simpa using h3x) r3
      _ = ("NO", { dricCache := cacheSet gs.dricCache (sha256Hex text) "NO",
                   lastGroqCall := some (gs.clock + 9),
                   clock := gs.clock + 15,
                   gqCalls := gs.gqCalls
                     ++ [gs.clock, gs.clock + 3 / 2, gs.clock + 9 / 2, gs.clock + 9],
                   sleeps := gs.sleeps ++ [3 / 2, 3, 9 / 2, 6] }) := by
          rw [askLoop_exhaust]
          norm_num [List.append_assoc]
          refine ⟨by ring, by ring, by ring, by ring⟩
  · intro o gs text m htext hl hlast ho hnrl
    unfold askDric
    rw [if_neg htext]
    simp only [hl]
    rw [show GROQ_MAX_RETRIES = 3 + 1 from rfl]
    simp only [askLoop, waitMinG_none gs hlast, ho, hnrl, Bool.false_eq_true, if_false]

theorem service_retry_linear_backoff_witness :
    crawlArticle (fun _ => .err "429 too many requests") initFetchState "u"
      = ("", { articleCache := cacheSet initFetchState.articleCache "u" "",
               lastFirecrawlCall := none,
               clock := initFetchState.clock + 12,
               fcCalls := initFetchState.fcCalls
                 ++ [initFetchState.clock, initFetchState.clock + 2,
                     initFetchState.clock + 6],
               sleeps := initFetchState.sleeps ++ [2, 4, 6] }) :=
  service_retry_linear_backoff.1 (fun _ => .err "429 too many requests")
    initFetchState "u" "429 too many requests" "429 too many requests"
    "429 too many requests" (by decide) (by decide) (by decide) (by decide)
    (by decide) (by decide) (by decide) (by decide)

theorem terminal_failures_cached_permanently_witness :
    (crawlArticle (fun _ => .err "boom") initFetchState "u").1 = ""
    ∧ ((crawlArticle (fun _ => .err "boom") initFetchState "u").2).articleCache.lookup "u"
        = some ""
    ∧ ((crawlArticle (fun _ => .err "boom") initFetchState "u").2).fcCalls.length
        = initFetchState.fcCalls.length + 1 :=
  terminal_failures_cached_permanently.1 (fun _ => .err "boom") initFetchState "u" "boom"
    (by decide) (by decide) (by decide)
